import Mathlib

/-!
A verification development for the UPBIT trading agent.

Python source files are shallowly embedded as Lean definitions: machine
floats are modelled as exact rationals (`ℚ`), Python `None` as `Option`,
Python dictionaries as functions into `Option` or association lists, and
wall-clock timestamps as rational numbers of seconds (or minutes).  Each
definition mirrors one Python function and is named after it.
-/

namespace Upbit

/-! ## Tick size (`TradingBot._get_tick_size`, src/trading/bot/trading_bot.py)

The same nine-band table also appears as `MarketAnalyzer._get_tick_size`
(src/core/market_analyzer.py). -/

def get_tick_size (price : ℚ) : ℚ :=
  if price < 10 then 1/100
  else if price < 100 then 1/10
  else if price < 1000 then 1
  else if price < 10000 then 5
  else if price < 100000 then 10
  else if price < 500000 then 50
  else if price < 1000000 then 100
  else if price < 2000000 then 500
  else 1000

theorem get_tick_size_pos (price : ℚ) : 0 < get_tick_size price := by
  unfold get_tick_size
  split_ifs <;> norm_num

/-! ## Protective take-profit target (`TradingBot._check_buy_signals`,
src/trading/bot/trading_bot.py lines 148-155)

```python
tick = self._get_tick_size(avg_price)
target_price = avg_price * (1 + tp_pct / 100)
target_price = math.ceil(target_price / tick) * tick
if target_price - avg_price < tick * min_ticks:
    target_price = avg_price + tick * min_ticks
    target_price = math.ceil(target_price / tick) * tick
```
-/

def pre_sell_target (avg_price tp_pct : ℚ) (min_ticks : ℤ) : ℚ :=
  let tick := get_tick_size avg_price
  let target₁ : ℚ := (⌈avg_price * (1 + tp_pct / 100) / tick⌉ : ℤ) * tick
  if target₁ - avg_price < tick * min_ticks then
    (⌈(avg_price + tick * min_ticks) / tick⌉ : ℤ) * tick
  else
    target₁

/-- Rounding a price up to the tick grid never lowers it. -/
theorem ceil_tick_ge (x tick : ℚ) (htick : 0 < tick) :
    x ≤ (⌈x / tick⌉ : ℤ) * tick := by
  rw [← div_le_iff₀ htick] at *
  exact Int.le_ceil (x / tick)

end Upbit

/-- C1: after a buy fill with average price `avg > 0`, with the tick size
derived from `avg` and `TP_PCT`/`MINIMUM_TICKS` from the sell settings, the
protective take-profit target equals `ceil(avg * (1 + TP_PCT/100) / tick) * tick`,
forced to `avg + MINIMUM_TICKS * tick` and re-rounded up whenever that value is
closer to `avg` than `MINIMUM_TICKS * tick`; the final target is an integer
multiple of `tick`, is at least `avg + MINIMUM_TICKS * tick`, and on
`avg = 11420`, `TP_PCT = 0.18`, `MINIMUM_TICKS = 2` (tick 10) it is 11450. -/
theorem C1_pre_sell_target_correct (avg tp : ℚ) (mt : ℤ) (_h : 0 < avg) :
    (Upbit.pre_sell_target avg tp mt =
      if (⌈avg * (1 + tp / 100) / Upbit.get_tick_size avg⌉ : ℤ) * Upbit.get_tick_size avg - avg <
          Upbit.get_tick_size avg * mt then
        (⌈(avg + Upbit.get_tick_size avg * mt) / Upbit.get_tick_size avg⌉ : ℤ) *
          Upbit.get_tick_size avg
      else
        (⌈avg * (1 + tp / 100) / Upbit.get_tick_size avg⌉ : ℤ) * Upbit.get_tick_size avg)
    ∧ (∃ n : ℤ, Upbit.pre_sell_target avg tp mt = n * Upbit.get_tick_size avg)
    ∧ avg + Upbit.get_tick_size avg * mt ≤ Upbit.pre_sell_target avg tp mt
    ∧ Upbit.pre_sell_target 11420 (18/100) 2 = 11450 := by
  have htick := Upbit.get_tick_size_pos avg
  have hex : Upbit.pre_sell_target 11420 (18/100) 2 = 11450 := by
    have h1 : (⌈(2860139/2500 : ℚ)⌉ : ℤ) = 1145 := by norm_num [Int.ceil_eq_iff]
    norm_num [Upbit.pre_sell_target, Upbit.get_tick_size, h1]
  refine ⟨rfl, ?_, ?_, hex⟩
  · simp only [Upbit.pre_sell_target]
    split_ifs with hc
    · exact ⟨_, rfl⟩
    · exact ⟨_, rfl⟩
  · simp only [Upbit.pre_sell_target]
    split_ifs with hc
    · exact Upbit.ceil_tick_ge (avg + Upbit.get_tick_size avg * mt) _ htick
    · linarith [hc]

/-- Witness for C1 at `avg = 11420`, `TP_PCT = 0.18`, `MINIMUM_TICKS = 2`. -/
theorem C1_pre_sell_target_correct_witness :
    Upbit.pre_sell_target 11420 (18/100) 2 = 11450 ∧
    11420 + Upbit.get_tick_size 11420 * 2 ≤ Upbit.pre_sell_target 11420 (18/100) 2 := by
  obtain ⟨-, -, hge, hex⟩ := C1_pre_sell_target_correct 11420 (18/100) 2 (by norm_num)
  exact ⟨hex, hge⟩

namespace Upbit

/-! ## Market cache (`MarketAnalyzer`, src/core/market_analyzer.py)

A cache slot is a Python dict `{'data': ..., 'timestamp': ...}` where either
field may be `None`; `self.cache` maps slot names to slots and is modelled as
a function into `Option`.  Timestamps are rational seconds; `datetime.now()`
is passed in explicitly as `now`.  `__init__` sets `self.cache_duration = 900`.
-/

structure CacheSlot (α : Type) where
  data : Option α
  timestamp : Option ℚ
deriving DecidableEq

/-- The `self.cache_duration = 900` constant from `MarketAnalyzer.__init__`. -/
def cache_duration : ℤ := 900

/-- `MarketAnalyzer._is_cache_valid` (lines 190-200).  The Python guard
`if not max_age: max_age = self.cache_duration` treats both `None` and `0`
as falsy; `not cache or not cache['timestamp']` returns `False` for a missing
slot or a `None` timestamp; otherwise the entry is valid iff
`(now - timestamp).total_seconds() < max_age`. -/
def is_cache_valid {α : Type} (cache : String → Option (CacheSlot α)) (cache_key : String)
    (max_age : Option ℤ) (duration : ℤ) (now : ℚ) : Bool :=
  let maxAge : ℤ :=
    match max_age with
    | none => duration
    | some m => if m = 0 then duration else m
  match cache cache_key with
  | none => false
  | some c =>
    match c.timestamp with
    | none => false
    | some ts => decide (now - ts < (maxAge : ℚ))

/-- `MarketAnalyzer._update_cache` (lines 202-208): stores the data and stamps
the current time.  The trailing `_limit_cache_size` call only evicts entries
inside the keyed slots' `data` dictionaries and never touches a slot's
`timestamp`, so it cannot change the result of `_is_cache_valid` and is
omitted from the slot-level model. -/
def update_cache {α : Type} (cache : String → Option (CacheSlot α)) (cache_key : String)
    (d : α) (now : ℚ) : String → Option (CacheSlot α) :=
  fun k => if k = cache_key then some ⟨some d, some now⟩ else cache k

end Upbit

/-- C9 counterexample: with `max_age = 0` an entry aged 100 seconds (≥ 0 = max_age)
is nevertheless reported valid, because the falsy guard replaces 0 by the
900-second default; so "aged `maxAge` or more implies invalid" fails at `maxAge = 0`. -/
theorem C9_counterexample :
    ((0 : ℤ) : ℚ) ≤ (100 : ℚ) - 0 ∧
    Upbit.is_cache_valid
      (fun k => if k = "candles" then some ⟨some (0 : ℕ), some 0⟩ else none)
      "candles" (some 0) Upbit.cache_duration 100 = true := by
  constructor
  · norm_num
  · simp [Upbit.is_cache_valid]
    norm_num [Upbit.cache_duration]

/-- C9 (amended): for every *positive* `max_age` (the non-falsy case),
`_is_cache_valid` returns `False` when the slot is missing, when its timestamp
was never set, and when the entry is aged `max_age` or more; and
`_update_cache` followed immediately by `_is_cache_valid` with the same
positive `max_age` returns `True`. -/
theorem C9_cache_validity {α : Type} (cache : String → Option (Upbit.CacheSlot α))
    (key : String) (m duration : ℤ) (now : ℚ) (hm : 0 < m) :
    (cache key = none → Upbit.is_cache_valid cache key (some m) duration now = false)
    ∧ (∀ c, cache key = some c → c.timestamp = none →
        Upbit.is_cache_valid cache key (some m) duration now = false)
    ∧ (∀ c ts, cache key = some c → c.timestamp = some ts → (m : ℚ) ≤ now - ts →
        Upbit.is_cache_valid cache key (some m) duration now = false)
    ∧ (∀ d : α, Upbit.is_cache_valid (Upbit.update_cache cache key d now) key
        (some m) duration now = true) := by
  have hm0 : ¬ m = 0 := by omega
  refine ⟨?_, ?_, ?_, ?_⟩
  · intro h
    simp [Upbit.is_cache_valid, h]
  · intro c hc hts
    simp [Upbit.is_cache_valid, hc, hts]
  · intro c ts hc hts hage
    simp [Upbit.is_cache_valid, hc, hts, hm0]
    linarith
  · intro d
    simp [Upbit.is_cache_valid, Upbit.update_cache, hm0]
    exact_mod_cast hm

/-- Witness for C9 (amended) at a concrete cache, `max_age = 10`, `now = 50`. -/
theorem C9_cache_validity_witness :
    Upbit.is_cache_valid (fun _ => (none : Option (Upbit.CacheSlot ℕ)))
      "candles" (some 10) Upbit.cache_duration 50 = false ∧
    Upbit.is_cache_valid
      (Upbit.update_cache (fun _ => (none : Option (Upbit.CacheSlot ℕ))) "candles" 7 50)
      "candles" (some 10) Upbit.cache_duration 50 = true := by
  obtain ⟨h1, -, -, h4⟩ :=
    C9_cache_validity (fun _ => (none : Option (Upbit.CacheSlot ℕ)))
      "candles" 10 Upbit.cache_duration 50 (by norm_num)
  exact ⟨h1 rfl, h4 7⟩

/-- C10: passing `max_age = 0` behaves exactly like passing `None` (the falsy
guard substitutes the 900 s default), so a populated entry younger than 900 s
is reported valid even when the caller asked for a zero maximum age. -/
theorem C10_zero_max_age_uses_default {α : Type}
    (cache : String → Option (Upbit.CacheSlot α)) (key : String) (duration : ℤ) (now : ℚ) :
    (Upbit.is_cache_valid cache key (some 0) duration now
      = Upbit.is_cache_valid cache key none duration now)
    ∧ (∀ c ts, cache key = some c → c.timestamp = some ts →
        now - ts < ((Upbit.cache_duration : ℤ) : ℚ) →
        Upbit.is_cache_valid cache key (some 0) Upbit.cache_duration now = true) := by
  constructor
  · simp [Upbit.is_cache_valid]
  · intro c ts hc hts hyoung
    simp [Upbit.is_cache_valid, hc, hts]
    exact_mod_cast hyoung

/-- Witness for C10: a slot updated at time 0 queried at time 100 with
`max_age = 0` is still reported valid. -/
theorem C10_zero_max_age_uses_default_witness :
    Upbit.is_cache_valid
      (fun k => if k = "candles" then some (⟨some (0 : ℕ), some 0⟩ : Upbit.CacheSlot ℕ) else none)
      "candles" (some 0) Upbit.cache_duration 100 = true := by
  obtain ⟨-, h2⟩ := C10_zero_max_age_uses_default
    (fun k => if k = "candles" then some (⟨some (0 : ℕ), some 0⟩ : Upbit.CacheSlot ℕ) else none)
    "candles" Upbit.cache_duration 100
  exact h2 ⟨some 0, some 0⟩ 0 (by simp) rfl (by norm_num [Upbit.cache_duration])

namespace Upbit

/-! ## Risk manager (`RiskManager`, src/core/risk_manager.py)

Wall-clock time is modelled as a rational number of minutes since a local
epoch; the local calendar date of a timestamp is `⌊t / 1440⌋` (1440 minutes
per day), so the date comparison in `_check_daily_loss` and the datetime
comparison in `_check_consecutive_losses` use one consistent clock. -/

structure RiskSystemConfig where
  max_daily_loss : ℚ
  consecutive_loss_limit : ℕ
  cooldown_minutes : ℚ

structure RiskState where
  consecutive_losses : ℕ
  last_loss_time : Option ℚ
  daily_loss : ℚ
  last_reset_day : ℤ
deriving DecidableEq

/-- Local calendar date (`datetime.now().date()`) of a timestamp in minutes. -/
def dayOf (t : ℚ) : ℤ := ⌊t / 1440⌋

/-- `RiskManager._check_daily_loss` (lines 70-85): reset the daily figure at a
date rollover, then compare `abs(self.daily_loss)` with the configured cap. -/
def check_daily_loss (cfg : RiskSystemConfig) (st : RiskState) (now : ℚ) : Bool × RiskState :=
  let st :=
    if dayOf now ≠ st.last_reset_day then
      { st with daily_loss := 0, last_reset_day := dayOf now }
    else st
  (decide (cfg.max_daily_loss ≤ |st.daily_loss|), st)

/-- `RiskManager._check_consecutive_losses` (lines 87-110): when the streak has
reached the limit, block while `now < last_loss_time + cooldown`; any
fall-through (cooldown elapsed, or no recorded loss time) resets the streak
counter and clears the loss time. -/
def check_consecutive_losses (cfg : RiskSystemConfig) (st : RiskState) (now : ℚ) :
    Bool × RiskState :=
  if cfg.consecutive_loss_limit ≤ st.consecutive_losses then
    match st.last_loss_time with
    | some t =>
      if now < t + cfg.cooldown_minutes then (true, st)
      else (false, { st with consecutive_losses := 0, last_loss_time := none })
    | none => (false, { st with consecutive_losses := 0, last_loss_time := none })
  else (false, st)

/-- `RiskManager.can_trade` (lines 46-68): daily-loss check first, then the
consecutive-loss check, each with its Korean reason string. -/
def can_trade (cfg : RiskSystemConfig) (st : RiskState) (now : ℚ) :
    (Bool × String) × RiskState :=
  let r₁ := check_daily_loss cfg st now
  if r₁.1 then ((false, "일일 손실 한도 초과"), r₁.2)
  else
    let r₂ := check_consecutive_losses cfg r₁.2 now
    if r₂.1 then ((false, "연속 손실 제한으로 인한 거래 중지"), r₂.2)
    else ((true, ""), r₂.2)

/-- The daily loss figure after the local-midnight reset has been applied. -/
def daily_after_reset (st : RiskState) (now : ℚ) : ℚ :=
  if dayOf now ≠ st.last_reset_day then 0 else st.daily_loss

end Upbit

/-- C3: `can_trade` refuses exactly when, after the local-midnight daily reset,
`abs(daily_loss) ≥ max_daily_loss`, or the streak has reached the limit and
`now` is still before `last_loss_time + cooldown`; otherwise it returns
`(True, "")`; and when the streak limit had been reached but the cooldown has
elapsed (and the daily cap is not hit), that very call resets the streak to 0
and clears the loss time while allowing the trade. -/
theorem C3_can_trade_spec (cfg : Upbit.RiskSystemConfig) (st : Upbit.RiskState) (now : ℚ) :
    ((Upbit.can_trade cfg st now).1.1 = false ↔
      cfg.max_daily_loss ≤ |Upbit.daily_after_reset st now| ∨
      (cfg.consecutive_loss_limit ≤ st.consecutive_losses ∧
        ∃ t, st.last_loss_time = some t ∧ now < t + cfg.cooldown_minutes))
    ∧ ((Upbit.can_trade cfg st now).1.1 = true → (Upbit.can_trade cfg st now).1.2 = "")
    ∧ (¬ cfg.max_daily_loss ≤ |Upbit.daily_after_reset st now| →
       cfg.consecutive_loss_limit ≤ st.consecutive_losses →
       (∀ t, st.last_loss_time = some t → t + cfg.cooldown_minutes ≤ now) →
       (Upbit.can_trade cfg st now).1.1 = true ∧
       (Upbit.can_trade cfg st now).2.consecutive_losses = 0 ∧
       (Upbit.can_trade cfg st now).2.last_loss_time = none) := by
  have hd1 : (Upbit.check_daily_loss cfg st now).1
      = decide (cfg.max_daily_loss ≤ |Upbit.daily_after_reset st now|) := by
    simp only [Upbit.check_daily_loss, Upbit.daily_after_reset]
    split_ifs <;> rfl
  have hd2l : (Upbit.check_daily_loss cfg st now).2.last_loss_time = st.last_loss_time := by
    simp only [Upbit.check_daily_loss]
    split_ifs <;> rfl
  have hd2c : (Upbit.check_daily_loss cfg st now).2.consecutive_losses
      = st.consecutive_losses := by
    simp only [Upbit.check_daily_loss]
    split_ifs <;> rfl
  simp only [Upbit.can_trade, hd1]
  by_cases hdl : cfg.max_daily_loss ≤ |Upbit.daily_after_reset st now|
  · simp [hdl]
  · simp only [decide_eq_false hdl, Bool.false_eq_true, if_false]
    simp only [Upbit.check_consecutive_losses, hd2l, hd2c]
    by_cases hcl : cfg.consecutive_loss_limit ≤ st.consecutive_losses
    · simp only [hcl, if_true]
      cases hlt : st.last_loss_time with
      | none => simp [hdl, hcl, hlt]
      | some t =>
        by_cases hcd : now < t + cfg.cooldown_minutes
        · simp [hdl, hcl, hlt, hcd]
        · simp only [hcd, if_false]
          simp [hdl, hcl, hlt]
          linarith [not_lt.mp hcd]
    · simp [hdl, hcl]

/-- Witness for C3: limit 3 reached, last loss at minute 0, cooldown 30,
queried at minute 40 of the same day with daily loss −50 under cap 100000:
the call allows the trade and resets the streak. -/
theorem C3_can_trade_spec_witness :
    (Upbit.can_trade ⟨100000, 3, 30⟩ ⟨3, some 0, -50, 0⟩ 40).1.1 = true ∧
    (Upbit.can_trade ⟨100000, 3, 30⟩ ⟨3, some 0, -50, 0⟩ 40).2.consecutive_losses = 0 ∧
    (Upbit.can_trade ⟨100000, 3, 30⟩ ⟨3, some 0, -50, 0⟩ 40).2.last_loss_time = none := by
  have hday : Upbit.dayOf 40 = 0 := by
    rw [Upbit.dayOf, show (40 : ℚ) / 1440 = 1/36 by norm_num, Int.floor_eq_zero_iff]
    constructor <;> norm_num
  refine (C3_can_trade_spec ⟨100000, 3, 30⟩ ⟨3, some 0, -50, 0⟩ 40).2.2 ?_ ?_ ?_
  · simp [Upbit.daily_after_reset, hday]
    norm_num
  · norm_num
  · intro t ht
    cases ht
    norm_num

namespace Upbit

/-! ## Monitoring-record synchronisation (`sync_holdings`, src/core/monitoring_coin.py)

The persisted monitoring file is a JSON object keyed by market code and is
modelled as a function `String → Option MonRec`.  A holdings entry carries
`total_value` (may be absent) and `balance`/`avg_price`; holdings are a list
of (market, info) pairs with distinct market keys (a Python dict). -/

structure MonRec where
  amount : ℚ
  pre_sell : Bool
deriving DecidableEq

structure Holding where
  total_value : Option ℚ
  balance : ℚ
  avg_price : ℚ

/-- The value used by `sync_holdings`: `info.get('total_value')`, falling back
to `balance * avg_price`. -/
def holding_amount (info : Holding) : ℚ :=
  info.total_value.getD (info.balance * info.avg_price)

abbrev MonData := String → Option MonRec

/-- One iteration of the first loop of `sync_holdings` (lines 63-79): drop a
sub-threshold holding's record; otherwise insert a fresh record, or update the
stored amount only when it moved by more than `1e-8`. -/
def sync_step (min_value : ℚ) (data : MonData) (h : String × Holding) : MonData :=
  let amount := holding_amount h.2
  if amount < min_value then
    fun k => if k = h.1 then none else data k
  else
    match data h.1 with
    | none => fun k => if k = h.1 then some ⟨amount, false⟩ else data k
    | some e =>
      if 1/100000000 < |e.amount - amount| then
        fun k => if k = h.1 then some { e with amount := amount } else data k
      else data

/-- `sync_holdings` (lines 57-89): the first loop over current holdings, then
the removal loop, which deletes a record only when its market is absent from
holdings *and* its recorded amount is at least `min_value`. -/
def sync_holdings (holdings : List (String × Holding)) (min_value : ℚ) (data : MonData) :
    MonData :=
  let data₁ := holdings.foldl (sync_step min_value) data
  fun k =>
    match data₁ k with
    | some e =>
      if k ∉ holdings.map Prod.fst ∧ min_value ≤ e.amount then none else some e
    | none => none

/-- `sync_step` leaves every key other than the processed market unchanged. -/
theorem sync_step_ne (minV : ℚ) (data : MonData) (h : String × Holding) (m : String)
    (hne : m ≠ h.1) : sync_step minV data h m = data m := by
  unfold sync_step
  split_ifs with h1
  · simp [hne]
  · cases hd : data h.1 with
    | none => simp [hne]
    | some e =>
      simp only [hd]
      split_ifs <;> simp [hne]

/-- The first loop leaves markets it never visits unchanged. -/
theorem foldl_sync_not_mem (minV : ℚ) (l : List (String × Holding)) (data : MonData)
    (m : String) (hm : m ∉ l.map Prod.fst) :
    l.foldl (sync_step minV) data m = data m := by
  induction l generalizing data with
  | nil => rfl
  | cons h t ih =>
    simp only [List.map_cons, List.mem_cons, not_or] at hm
    rw [List.foldl_cons, ih _ hm.2, sync_step_ne _ _ _ _ hm.1]

/-- Effect of `sync_step` at the processed market itself. -/
theorem sync_step_own (minV : ℚ) (data : MonData) (h : String × Holding) :
    (holding_amount h.2 < minV → sync_step minV data h h.1 = none) ∧
    (minV ≤ holding_amount h.2 → ∃ e, sync_step minV data h h.1 = some e ∧
      |e.amount - holding_amount h.2| ≤ 1/100000000) := by
  constructor
  · intro hlt
    unfold sync_step
    simp [hlt]
  · intro hge
    unfold sync_step
    rw [if_neg (not_lt.mpr hge)]
    cases hd : data h.1 with
    | none => exact ⟨⟨holding_amount h.2, false⟩, by simp, by simp⟩
    | some e =>
      simp only
      split_ifs with h2
      · exact ⟨{ e with amount := holding_amount h.2 }, by simp, by simp⟩
      · exact ⟨e, by simp [hd], le_of_not_lt h2⟩

/-- After the first loop, each held market's record reflects its holding value
(dropped when sub-threshold, otherwise present within the update tolerance). -/
theorem foldl_sync_mem (minV : ℚ) (l : List (String × Holding)) (data : MonData)
    (m : String) (info : Holding) (hnd : (l.map Prod.fst).Nodup) (hmem : (m, info) ∈ l) :
    (holding_amount info < minV → l.foldl (sync_step minV) data m = none) ∧
    (minV ≤ holding_amount info → ∃ e, l.foldl (sync_step minV) data m = some e ∧
      |e.amount - holding_amount info| ≤ 1/100000000) := by
  induction l generalizing data with
  | nil => cases hmem
  | cons h t ih =>
    simp only [List.map_cons, List.nodup_cons] at hnd
    rcases List.mem_cons.mp hmem with heq | hmem'
    · subst heq
      have hnot : m ∉ t.map Prod.fst := hnd.1
      rw [List.foldl_cons]
      constructor
      · intro hlt
        rw [foldl_sync_not_mem _ _ _ _ hnot]
        exact (sync_step_own minV data (m, info)).1 hlt
      · intro hge
        rw [foldl_sync_not_mem _ _ _ _ hnot]
        exact (sync_step_own minV data (m, info)).2 hge
    · exact List.foldl_cons _ _ ▸ ih (sync_step minV data h) hnd.2 hmem'

end Upbit

/-- C7 counterexample: a pre-existing record for `KRW-X` with amount 0, with
`KRW-X` absent from the (empty) holdings map, survives `sync_holdings` — the
removal loop only deletes records whose amount is at least `min_value`, so the
claim "no record for a market not in holdings survives the call" is false. -/
theorem C7_counterexample :
    ("KRW-X" ∉ (([] : List (String × Upbit.Holding)).map Prod.fst)) ∧
    Upbit.sync_holdings [] 5000
      (fun k => if k = "KRW-X" then some ⟨0, false⟩ else none) "KRW-X"
      = some ⟨0, false⟩ := by
  refine ⟨by simp, ?_⟩
  simp [Upbit.sync_holdings]

/-- C7 (amended): after `sync_holdings`, every surviving record whose market is
absent from the holdings map has a recorded amount below `min_value`;
equivalently, records for absent markets with amount ≥ `min_value` are always
removed (sub-threshold leftovers are the only survivors). -/
theorem C7_sync_absent_pruned (holdings : List (String × Upbit.Holding)) (min_value : ℚ)
    (data : Upbit.MonData) (m : String) (e : Upbit.MonRec)
    (hm : m ∉ holdings.map Prod.fst)
    (he : Upbit.sync_holdings holdings min_value data m = some e) : e.amount < min_value := by
  rcases hd : holdings.foldl (Upbit.sync_step min_value) data m with _ | e'
  · simp only [Upbit.sync_holdings, hd] at he
    exact Option.noConfusion he
  · simp only [Upbit.sync_holdings, hd] at he
    split_ifs at he with hcond
    rw [Option.some_inj] at he
    subst he
    push_neg at hcond
    exact hcond hm

/-- Witness for C7 (amended): the surviving absent-market record of the
counterexample input indeed has amount below the 5000 threshold. -/
theorem C7_sync_absent_pruned_witness : (0 : ℚ) < 5000 :=
  C7_sync_absent_pruned [] 5000
    (fun k => if k = "KRW-X" then some ⟨0, false⟩ else none) "KRW-X" ⟨0, false⟩
    (by simp) (by simp [Upbit.sync_holdings])

/-- C8 counterexample: a held market valued exactly at the threshold whose
stored amount differs from that value by `1e-9` (within the `1e-8` update
tolerance) keeps its stale amount, so "the recorded amount equals the holding
value" is false as stated. -/
theorem C8_counterexample :
    Upbit.sync_holdings [("KRW-X", ⟨some 5000, 0, 0⟩)] 5000
      (fun k => if k = "KRW-X" then some ⟨5000 + 1/1000000000, false⟩ else none) "KRW-X"
      = some ⟨5000 + 1/1000000000, false⟩
    ∧ Upbit.holding_amount ⟨some 5000, 0, 0⟩ = 5000
    ∧ (5000 + 1/1000000000 : ℚ) ≠ 5000 := by
  refine ⟨?_, rfl, by norm_num⟩
  have habs : ¬ ((100000000:ℚ)⁻¹ < |(1000000000:ℚ)⁻¹|) := by
    rw [abs_of_pos (by norm_num)]
    norm_num
  simp [Upbit.sync_holdings, Upbit.sync_step, Upbit.holding_amount, habs]

/-- C8 (amended): after `sync_holdings`, every held market valued below
`min_value` has no record, and every held market valued at or above
`min_value` has a record whose amount is within the `1e-8` update tolerance of
that value (exactly equal whenever the stored amount differed by more than
`1e-8` or no record existed). -/
theorem C8_sync_material_records (holdings : List (String × Upbit.Holding)) (min_value : ℚ)
    (data : Upbit.MonData) (m : String) (info : Upbit.Holding)
    (hnd : (holdings.map Prod.fst).Nodup) (hmem : (m, info) ∈ holdings) :
    (Upbit.holding_amount info < min_value →
      Upbit.sync_holdings holdings min_value data m = none) ∧
    (min_value ≤ Upbit.holding_amount info →
      ∃ e, Upbit.sync_holdings holdings min_value data m = some e ∧
        |e.amount - Upbit.holding_amount info| ≤ 1/100000000) := by
  have hkey : m ∈ holdings.map Prod.fst := List.mem_map_of_mem Prod.fst hmem
  obtain ⟨h1, h2⟩ := Upbit.foldl_sync_mem min_value holdings data m info hnd hmem
  constructor
  · intro hlt
    simp only [Upbit.sync_holdings, h1 hlt]
  · intro hge
    obtain ⟨e, he, hclose⟩ := h2 hge
    refine ⟨e, ?_, hclose⟩
    simp only [Upbit.sync_holdings, he]
    rw [if_neg]
    intro hcon
    exact hcon.1 hkey

/-- Witness for C8 (amended): a single holding valued 5000 with an empty
monitoring file yields a record within tolerance of 5000. -/
theorem C8_sync_material_records_witness :
    ∃ e, Upbit.sync_holdings [("KRW-X", ⟨some 5000, 0, 0⟩)] 5000 (fun _ => none) "KRW-X"
      = some e ∧ |e.amount - Upbit.holding_amount ⟨some 5000, 0, 0⟩| ≤ 1/100000000 :=
  (C8_sync_material_records [("KRW-X", ⟨some 5000, 0, 0⟩)] 5000 (fun _ => none)
    "KRW-X" ⟨some 5000, 0, 0⟩ (by simp) (by simp)).2
    (by norm_num [Upbit.holding_amount])

namespace Upbit

/-! ## Rate-limit retry (`MarketAnalyzer._send_request`, src/core/market_analyzer.py)

```python
if response.status_code == 429:  # Too Many Requests
    time.sleep(1)
    return self._send_request(method, endpoint, params)
response.raise_for_status()
return response.json()
```

The exchange is an oracle `resp : ℕ → Option HttpResponse` giving the outcome
of the n-th HTTP attempt (`none` = transport failure, which the `except`
clauses turn into a `None` return).  `raise_for_status` turns any 4xx/5xx
status into an `HTTPError`, also caught and returned as `None`.  The 429
branch re-invokes the function recursively with no retry counter, so the Lean
embedding is fuelled: a `none` overall result means the recursion had not
returned within `fuel` attempts.  The result pairs the Python return value
with the index after the last HTTP attempt, i.e. the number of attempts
performed when starting from index 0. -/

structure HttpResponse where
  code : ℕ
  body : String
deriving DecidableEq

def send_request (resp : ℕ → Option HttpResponse) (i : ℕ) : ℕ → Option (Option String × ℕ)
  | 0 => none
  | fuel + 1 =>
    match resp i with
    | none => some (none, i + 1)
    | some r =>
      if r.code = 429 then send_request resp (i + 1) fuel
      else if 400 ≤ r.code then some (none, i + 1)
      else some (some r.body, i + 1)

/-- When the first `k` responses are 429 and the `k`-th is not, the call makes
exactly `k + 1` HTTP attempts and returns the `k`-th response's outcome. -/
theorem send_request_result (resp : ℕ → Option HttpResponse) (k : ℕ) :
    ∀ i, (∀ j, j < k → ∃ r, resp (i + j) = some r ∧ r.code = 429) →
    (∀ r, resp (i + k) = some r → r.code ≠ 429) →
    ∀ fuel, k < fuel → send_request resp i fuel =
      some ((match resp (i + k) with
             | none => none
             | some r => if 400 ≤ r.code then none else some r.body), i + k + 1) := by
  induction k with
  | zero =>
    intro i _ hstop fuel hfuel
    obtain ⟨f, rfl⟩ : ∃ f, fuel = f + 1 := ⟨fuel - 1, by omega⟩
    rw [send_request]
    cases hr : resp (i + 0) with
    | none => simp at hr; simp [hr]
    | some r =>
      have hne : r.code ≠ 429 := hstop r hr
      simp only [Nat.add_zero] at hr
      simp [hr, hne]
      split_ifs <;> rfl
  | succ k ih =>
    intro i h429 hstop fuel hfuel
    obtain ⟨f, rfl⟩ : ∃ f, fuel = f + 1 := ⟨fuel - 1, by omega⟩
    obtain ⟨r0, hr0, hc0⟩ := h429 0 (Nat.succ_pos k)
    simp only [Nat.add_zero] at hr0
    rw [send_request, hr0]
    simp only [hc0, if_true]
    have := ih (i + 1)
      (fun j hj => by
        obtain ⟨r, hr, hc⟩ := h429 (j + 1) (by omega)
        exact ⟨r, by rw [show i + 1 + j = i + (j + 1) by omega]; exact hr, hc⟩)
      (fun r hr => hstop r (by rw [show i + (k + 1) = i + 1 + k by omega]; exact hr))
      f (by omega)
    rw [this, show i + 1 + k = i + (k + 1) by omega]

/-- If the exchange answers 429 forever, the recursion never returns. -/
theorem send_request_all429 (resp : ℕ → Option HttpResponse)
    (h : ∀ i, ∃ r, resp i = some r ∧ r.code = 429) :
    ∀ fuel i, send_request resp i fuel = none := by
  intro fuel
  induction fuel with
  | zero => intro i; rfl
  | succ f ih =>
    intro i
    obtain ⟨r, hr, hc⟩ := h i
    rw [send_request, hr]
    simp [hc, ih]

end Upbit

/-- C5 counterexample: an exchange that answers 429 twice and then 200 makes
`_send_request` perform three HTTP attempts within a single call, refuting
"at most one retry (at most two HTTP attempts) per call". -/
theorem C5_counterexample :
    Upbit.send_request (fun n => some ⟨if n < 2 then 429 else 200, "ok"⟩) 0 10
      = some (some "ok", 3) ∧ ¬ ((3 : ℕ) ≤ 2) := by
  refine ⟨?_, by decide⟩
  rfl

/-- C5 (amended): on each 429 response `_send_request` sleeps the fixed
backoff and re-invokes itself recursively with no retry bound: when the first
`k` responses are 429 and the `(k+1)`-th is not, the call performs exactly
`k + 1` HTTP attempts and returns that response's outcome; when the exchange
keeps answering 429 the recursion never returns at all. -/
theorem C5_send_request_unbounded_retry (resp : ℕ → Option Upbit.HttpResponse) :
    (∀ k, (∀ j, j < k → ∃ r, resp j = some r ∧ r.code = 429) →
      (∀ r, resp k = some r → r.code ≠ 429) →
      ∀ fuel, k < fuel → Upbit.send_request resp 0 fuel =
        some ((match resp k with
               | none => none
               | some r => if 400 ≤ r.code then none else some r.body), k + 1))
    ∧ ((∀ i, ∃ r, resp i = some r ∧ r.code = 429) →
        ∀ fuel, Upbit.send_request resp 0 fuel = none) := by
  constructor
  · intro k h429 hstop fuel hfuel
    have := Upbit.send_request_result resp k 0
      (fun j hj => by simpa using h429 j hj)
      (fun r hr => hstop r (by simpa using hr))
      fuel hfuel
    simpa using this
  · intro h fuel
    exact Upbit.send_request_all429 resp h fuel 0

/-- Witness for C5 (amended) at the concrete 429-429-200 response stream. -/
theorem C5_send_request_unbounded_retry_witness :
    Upbit.send_request (fun n => some ⟨if n < 2 then 429 else 200, "ok"⟩) 0 5
      = some (some "ok", 3) := by
  have h := (C5_send_request_unbounded_retry
      (fun n => some ⟨if n < 2 then 429 else 200, "ok"⟩)).1 2
    (fun j hj => ⟨⟨429, "ok"⟩, by interval_cases j <;> rfl, rfl⟩)
    (fun r hr => by
      simp only [show ¬(2 < 2) from by omega, if_false] at hr
      cases hr
      decide)
    5 (by omega)
  simpa using h

namespace Upbit

/-! ## Invalid-market bookkeeping of the exchange gateway

Modelled from the spec: the `invalidMarkets` handling of §4.1 — recording a
market on a "market not found" (404 "code not found") error and
short-circuiting every later call for that market to "no data" with no
network round trip — is absent from the code under `src/` (the
`_send_request` / `get_market_info` bodies in src/core/market_analyzer.py
have no such set; only the tests set an `invalid_markets` attribute), so the
gateway's invalid-market behaviour is modelled from the spec's words.
`network_calls` counts actual HTTP round trips. -/

structure Gateway where
  invalid_markets : List String
  network_calls : ℕ
deriving DecidableEq

inductive ExchangeAnswer where
  | ok (body : String)
  | marketNotFound
  | otherError
deriving DecidableEq

/-- Modelled from the spec: `send` addressed to a market: short-circuit to "no
data" when the market is known-invalid (no network call); otherwise perform
the call, and on a "market not found" error record the market and return "no
data"; other errors also surface as "no data". -/
def gateway_send (gw : Gateway) (market : String) (answer : ExchangeAnswer) :
    Option String × Gateway :=
  if market ∈ gw.invalid_markets then (none, gw)
  else
    let gw' := { gw with network_calls := gw.network_calls + 1 }
    match answer with
    | .ok body => (some body, gw')
    | .marketNotFound => (none, { gw' with invalid_markets := market :: gw'.invalid_markets })
    | .otherError => (none, gw')

/-- Modelled from the spec: `getMarketInfo` goes through `send` for the market. -/
def get_market_info_gw (gw : Gateway) (market : String) (answer : ExchangeAnswer) :
    Option String × Gateway :=
  gateway_send gw market answer

end Upbit

/-- C4 (spec-modelled): a "market not found" answer records the market in the
invalid set and returns no data; every subsequent call for a market in the
set returns no data without touching the network (state and call counter
unchanged); in particular any call after the 404 short-circuits. -/
theorem C4_invalid_market_short_circuit (gw : Upbit.Gateway) (m : String)
    (a a' : Upbit.ExchangeAnswer) :
    ((Upbit.gateway_send gw m .marketNotFound).1 = none ∧
      m ∈ (Upbit.gateway_send gw m .marketNotFound).2.invalid_markets)
    ∧ (m ∈ gw.invalid_markets → Upbit.get_market_info_gw gw m a = (none, gw))
    ∧ (Upbit.get_market_info_gw (Upbit.gateway_send gw m .marketNotFound).2 m a').1 = none
    ∧ (Upbit.get_market_info_gw (Upbit.gateway_send gw m .marketNotFound).2 m a').2.network_calls
        = (Upbit.gateway_send gw m .marketNotFound).2.network_calls := by
  by_cases hm : m ∈ gw.invalid_markets
  · refine ⟨⟨?_, ?_⟩, ?_, ?_, ?_⟩ <;>
      simp [Upbit.gateway_send, Upbit.get_market_info_gw, hm]
  · refine ⟨⟨?_, ?_⟩, ?_, ?_, ?_⟩ <;>
      simp [Upbit.gateway_send, Upbit.get_market_info_gw, hm]

/-- Witness for C4 at a fresh gateway and market `KRW-FOO`. -/
theorem C4_invalid_market_short_circuit_witness :
    Upbit.get_market_info_gw ⟨["KRW-FOO"], 1⟩ "KRW-FOO" (.ok "data")
      = (none, ⟨["KRW-FOO"], 1⟩) :=
  (C4_invalid_market_short_circuit ⟨["KRW-FOO"], 1⟩ "KRW-FOO" (.ok "data") .otherError).2.1
    (by simp)

namespace Upbit

/-! ## Order manager (`OrderManager`, src/core/order_manager.py)

The exchange API (`UpbitAPI`) is an oracle giving the result of the n-th call
of each kind; an instrumented `ApiState` counts calls and records whether an
order-book fetch has ever returned no data (`ob_failed`) and how many
`place_order` calls happened after such a failure (`po_after_ob_fail`), so
"no order is placed after a failed order-book lookup" is a statement about the
final state.  Python order dicts are modelled by `ApiDict` (`error` present ↔
`'error' in order`); `cancel_order` has no modelled effect.  `_wait_for_order`
polls once per second while the elapsed time is below `timeout`, so it is
embedded with `timeout` as fuel. -/

structure ApiDict where
  uuid : String := ""
  error : Option String := none
  state : String := ""
deriving DecidableEq

structure OrderbookTop where
  ask_price : ℚ
  bid_price : ℚ
deriving DecidableEq

structure ApiOracle where
  orderbook : ℕ → Option OrderbookTop
  place_order : ℕ → Option ApiDict
  order_status : ℕ → Option ApiDict

structure ApiState where
  ob_calls : ℕ
  po_calls : ℕ
  os_calls : ℕ
  ob_failed : Bool
  po_after_ob_fail : ℕ
deriving DecidableEq

def api_get_orderbook (o : ApiOracle) (s : ApiState) : Option OrderbookTop × ApiState :=
  let r := o.orderbook s.ob_calls
  (r, { s with ob_calls := s.ob_calls + 1, ob_failed := s.ob_failed || r.isNone })

def api_place_order (o : ApiOracle) (s : ApiState) : Option ApiDict × ApiState :=
  (o.place_order s.po_calls,
   { s with po_calls := s.po_calls + 1,
            po_after_ob_fail := s.po_after_ob_fail + (if s.ob_failed then 1 else 0) })

def api_get_order_status (o : ApiOracle) (s : ApiState) : Option ApiDict × ApiState :=
  (o.order_status s.os_calls, { s with os_calls := s.os_calls + 1 })

/-- `OrderManager._wait_for_order` (lines 20-43): poll the order state once a
second until `done` (success), `canceled` or a failed status lookup, for at
most `timeout` iterations. -/
def wait_for_order (o : ApiOracle) (s : ApiState) : ℕ → (Bool × Option ApiDict) × ApiState
  | 0 => ((false, none), s)
  | t + 1 =>
    let r := api_get_order_status o s
    match r.1 with
    | none => ((false, none), r.2)
    | some ord =>
      if ord.state = "done" then ((true, some ord), r.2)
      else if ord.state = "canceled" then ((false, some ord), r.2)
      else wait_for_order o r.2 t

/-- The `{'error': '호가 정보 조회 실패'}` dict returned when the order-book
fetch fails. -/
def ob_error_dict : ApiDict := { error := some "호가 정보 조회 실패" }

/-- The common tail `place_order` → error check → `_wait_for_order` shared by
`_place_limit_order` (lines 246-262) and the market fallback of
`buy_with_settings` (lines 326-343): a `None` or error-carrying order answer
returns failure with an `{'error': detail}` dict; otherwise wait for the fill
(the cancel on a timed-out limit order has no modelled effect). -/
def submit_and_wait (o : ApiOracle) (s : ApiState) (timeout : ℕ) :
    (Bool × Option ApiDict) × ApiState :=
  let rpo := api_place_order o s
  match rpo.1 with
  | none => ((false, some { error := some "API 요청 실패" }), rpo.2)
  | some ord =>
    if ord.error.isSome then ((false, some { error := ord.error }), rpo.2)
    else wait_for_order o rpo.2 timeout

/-- `OrderManager._place_limit_order` (lines 221-265): fetch the order book
(failure returns the `'호가 정보 조회 실패'` error dict with no order placed),
derive tick and price from the configured order type, then submit and wait.
A zero price makes Python's `volume = amount / price` raise
`ZeroDivisionError`, caught by the enclosing `except` which returns
`(False, None)`. -/
def place_limit_order (o : ApiOracle) (s : ApiState) (amount : ℚ) (order_type : String)
    (timeout : ℕ) : (Bool × Option ApiDict) × ApiState :=
  let rob := api_get_orderbook o s
  match rob.1 with
  | none => ((false, some ob_error_dict), rob.2)
  | some ob =>
    let tick := if ob.bid_price < ob.ask_price then ob.ask_price - ob.bid_price
                else ob.bid_price * (1/1000)
    let price := if order_type = "best_bid" then ob.bid_price
                 else if order_type = "best_bid+1" then ob.bid_price + tick
                 else ob.ask_price
    if price = 0 then ((false, none), rob.2)
    else submit_and_wait o rob.2 timeout

/-- The market-order fallback tail of `buy_with_settings` (lines 325-343):
place a market buy and wait up to 10 s for the fill. -/
def market_fallback (o : ApiOracle) (s : ApiState) : (Bool × Option ApiDict) × ApiState :=
  submit_and_wait o s 10

/-- The `isinstance(order, dict) and order.get('error') == '호가 정보 조회 실패'`
test of lines 311 and 321. -/
def has_ob_error : Option ApiDict → Bool
  | some d => d.error = some "호가 정보 조회 실패"
  | none => false

/-- The `mapping.get(..., default)` lookup of lines 291-299. -/
def bid_mapping (t dflt : String) : String :=
  if t = "BID1" then "best_bid"
  else if t = "BID1+" then "best_bid+1"
  else if t = "ASK1" then "best_ask"
  else dflt

structure BuySettings where
  entry_size_initial : ℚ
  first_bid_price : String
  limit_wait_sec_1 : ℤ
  second_bid_price : String
  limit_wait_sec_2 : ℤ

/-- `OrderManager.buy_with_settings` (lines 289-343): tier-1 limit buy; on an
order-book-failure error dict abort; otherwise tier-2 (when its wait is > 0)
with the same abort rule; otherwise the market fallback. -/
def buy_with_settings (o : ApiOracle) (s : ApiState) (settings : BuySettings) :
    (Bool × Option ApiDict) × ApiState :=
  let amount := settings.entry_size_initial
  let first_type := bid_mapping settings.first_bid_price "best_bid"
  let second_type := bid_mapping settings.second_bid_price "best_ask"
  match place_limit_order o s amount first_type settings.limit_wait_sec_1.toNat with
  | ((true, order₁), s₁) => ((true, order₁), s₁)
  | ((false, order₁), s₁) =>
    if has_ob_error order₁ then ((false, order₁), s₁)
    else if 0 < settings.limit_wait_sec_2 then
      match place_limit_order o s₁ amount second_type settings.limit_wait_sec_2.toNat with
      | ((true, order₂), s₂) => ((true, order₂), s₂)
      | ((false, order₂), s₂) =>
        if has_ob_error order₂ then ((false, order₂), s₂)
        else market_fallback o s₂
    else market_fallback o s₁

/-- `_wait_for_order` only bumps the status-poll counter. -/
theorem wait_for_order_os (o : ApiOracle) (s : ApiState) (t : ℕ) :
    ∃ n, (wait_for_order o s t).2 = { s with os_calls := n } := by
  induction t generalizing s with
  | zero => exact ⟨s.os_calls, rfl⟩
  | succ t ih =>
    rw [wait_for_order]
    cases ho : o.order_status s.os_calls with
    | none => exact ⟨s.os_calls + 1, by simp [api_get_order_status, ho]⟩
    | some ord =>
      simp only [api_get_order_status, ho]
      split_ifs with hd hc
      · exact ⟨s.os_calls + 1, rfl⟩
      · exact ⟨s.os_calls + 1, rfl⟩
      · obtain ⟨n, hn⟩ := ih { s with os_calls := s.os_calls + 1 }
        exact ⟨n, hn⟩

theorem wait_ob (o : ApiOracle) (s : ApiState) (t : ℕ) :
    (wait_for_order o s t).2.ob_failed = s.ob_failed := by
  obtain ⟨n, hn⟩ := wait_for_order_os o s t
  rw [hn]

theorem wait_po (o : ApiOracle) (s : ApiState) (t : ℕ) :
    (wait_for_order o s t).2.po_after_ob_fail = s.po_after_ob_fail := by
  obtain ⟨n, hn⟩ := wait_for_order_os o s t
  rw [hn]

theorem submit_ob (o : ApiOracle) (s : ApiState) (t : ℕ) :
    (submit_and_wait o s t).2.ob_failed = s.ob_failed := by
  unfold submit_and_wait
  simp only [api_place_order]
  cases hpl : o.place_order s.po_calls with
  | none => rfl
  | some ord =>
    by_cases he : ord.error.isSome
    · simp [he]
    · simp [he, wait_ob]

/-- No order placed after an order-book failure: `place_order` inside
`submit_and_wait` does not raise the tally while `ob_failed` is clear. -/
theorem submit_po (o : ApiOracle) (s : ApiState) (t : ℕ) (hof : s.ob_failed = false) :
    (submit_and_wait o s t).2.po_after_ob_fail = s.po_after_ob_fail := by
  unfold submit_and_wait
  simp only [api_place_order, hof]
  cases hpl : o.place_order s.po_calls with
  | none => simp
  | some ord =>
    by_cases he : ord.error.isSome
    · simp [he]
    · simp [he, wait_po]

theorem place_po (o : ApiOracle) (s : ApiState) (amount : ℚ) (ot : String) (t : ℕ)
    (hof : s.ob_failed = false) :
    (place_limit_order o s amount ot t).2.po_after_ob_fail = s.po_after_ob_fail := by
  unfold place_limit_order
  cases hob : o.orderbook s.ob_calls with
  | none => simp [api_get_orderbook, hob]
  | some ob =>
    simp only [api_get_orderbook, hob]
    split_ifs <;> simp [submit_po, hof]

/-- When a `_place_limit_order` attempt ends with the failure flag raised, the
attempt itself returned the order-book-failure error dict without success. -/
theorem place_ob_fail (o : ApiOracle) (s : ApiState) (amount : ℚ) (ot : String) (t : ℕ)
    (hof : s.ob_failed = false) :
    (place_limit_order o s amount ot t).2.ob_failed = true →
      (place_limit_order o s amount ot t).1 = (false, some ob_error_dict) := by
  unfold place_limit_order
  cases hob : o.orderbook s.ob_calls with
  | none => intro _; simp [api_get_orderbook, hob]
  | some ob =>
    simp only [api_get_orderbook, hob, Option.isNone_some, Bool.or_false]
    split_ifs <;> simp [submit_ob, hof]

/-- A tier-1 order-book failure makes `buy_with_settings` return the failure
immediately: the final state differs from the input only by the one order-book
call, so in particular no `place_order` call happened. -/
theorem buy_ob_fail_immediate (o : ApiOracle) (s : ApiState) (settings : BuySettings)
    (hob : o.orderbook s.ob_calls = none) :
    buy_with_settings o s settings =
      ((false, some ob_error_dict),
       { s with ob_calls := s.ob_calls + 1, ob_failed := true }) := by
  have hpl : place_limit_order o s settings.entry_size_initial
      (bid_mapping settings.first_bid_price "best_bid") settings.limit_wait_sec_1.toNat =
      ((false, some ob_error_dict),
       { s with ob_calls := s.ob_calls + 1, ob_failed := s.ob_failed || true }) := by
    unfold place_limit_order
    simp [api_get_orderbook, hob]
  simp only [buy_with_settings, hpl]
  simp [has_ob_error, ob_error_dict]

/-- Across every execution path of `buy_with_settings`, no `place_order` call
is ever made after an order-book fetch has failed, and if any order-book fetch
failed during the run the function returns failure. -/
theorem buy_no_order_after_ob_fail (o : ApiOracle) (s : ApiState) (settings : BuySettings)
    (hof : s.ob_failed = false) (hpo : s.po_after_ob_fail = 0) :
    (buy_with_settings o s settings).2.po_after_ob_fail = 0 ∧
    ((buy_with_settings o s settings).2.ob_failed = true →
      (buy_with_settings o s settings).1.1 = false) := by
  unfold buy_with_settings
  rcases h1 : place_limit_order o s settings.entry_size_initial
      (bid_mapping settings.first_bid_price "best_bid") settings.limit_wait_sec_1.toNat
    with ⟨⟨succ₁, ord₁⟩, s₁⟩
  have hpo₁ : s₁.po_after_ob_fail = 0 := by
    have h := place_po o s settings.entry_size_initial
      (bid_mapping settings.first_bid_price "best_bid") settings.limit_wait_sec_1.toNat hof
    rw [h1] at h
    simpa [hpo] using h
  have hobf₁ := place_ob_fail o s settings.entry_size_initial
      (bid_mapping settings.first_bid_price "best_bid") settings.limit_wait_sec_1.toNat hof
  rw [h1] at hobf₁
  simp only [h1]
  cases succ₁ with
  | true =>
    simp only []
    refine ⟨hpo₁, fun hb => ?_⟩
    have h2 := hobf₁ hb
    simp at h2
  | false =>
    simp only []
    by_cases heo : has_ob_error ord₁ = true
    · rw [if_pos heo]
      exact ⟨hpo₁, fun _ => rfl⟩
    · rw [if_neg heo]
      have hof₁ : s₁.ob_failed = false := by
        cases hb : s₁.ob_failed
        · rfl
        · have h2 := hobf₁ hb
          simp only [Prod.mk.injEq] at h2
          rw [h2.2] at heo
          exact absurd (by simp [has_ob_error, ob_error_dict]) heo
      by_cases h2 : 0 < settings.limit_wait_sec_2
      · rw [if_pos h2]
        rcases hq : place_limit_order o s₁ settings.entry_size_initial
            (bid_mapping settings.second_bid_price "best_ask") settings.limit_wait_sec_2.toNat
          with ⟨⟨succ₂, ord₂⟩, s₂⟩
        have hpo₂ : s₂.po_after_ob_fail = 0 := by
          have h := place_po o s₁ settings.entry_size_initial
            (bid_mapping settings.second_bid_price "best_ask")
            settings.limit_wait_sec_2.toNat hof₁
          rw [hq] at h
          simpa [hpo₁] using h
        have hobf₂ := place_ob_fail o s₁ settings.entry_size_initial
            (bid_mapping settings.second_bid_price "best_ask")
            settings.limit_wait_sec_2.toNat hof₁
        rw [hq] at hobf₂
        cases succ₂ with
        | true =>
          simp only []
          refine ⟨hpo₂, fun hb => ?_⟩
          have h3 := hobf₂ hb
          simp at h3
        | false =>
          simp only []
          by_cases heo₂ : has_ob_error ord₂ = true
          · rw [if_pos heo₂]
            exact ⟨hpo₂, fun _ => rfl⟩
          · rw [if_neg heo₂]
            have hof₂ : s₂.ob_failed = false := by
              cases hb : s₂.ob_failed
              · rfl
              · have h3 := hobf₂ hb
                simp only [Prod.mk.injEq] at h3
                rw [h3.2] at heo₂
                exact absurd (by simp [has_ob_error, ob_error_dict]) heo₂
            refine ⟨?_, fun hb => ?_⟩
            · rw [market_fallback, submit_po o s₂ 10 hof₂]
              exact hpo₂
            · rw [market_fallback, submit_ob, hof₂] at hb
              cases hb
      · rw [if_neg h2]
        refine ⟨?_, fun hb => ?_⟩
        · rw [market_fallback, submit_po o s₁ 10 hof₁]
          exact hpo₁
        · rw [market_fallback, submit_ob, hof₁] at hb
          cases hb

end Upbit

/-- C6: when the order-book fetch of the first buy attempt fails,
`buy_with_settings` returns failure at once with the order-book-failure error
dict and a final state showing exactly one more order-book call and no
`place_order` call at all (no limit order, no market fallback); and on every
execution path from a clean state, no `place_order` call ever follows a failed
order-book fetch, with any such failure forcing a failure return. -/
theorem C6_orderbook_failure_aborts (o : Upbit.ApiOracle) (s : Upbit.ApiState)
    (settings : Upbit.BuySettings) (hof : s.ob_failed = false)
    (hpo : s.po_after_ob_fail = 0) :
    (o.orderbook s.ob_calls = none →
      Upbit.buy_with_settings o s settings =
        ((false, some Upbit.ob_error_dict),
         { s with ob_calls := s.ob_calls + 1, ob_failed := true }))
    ∧ (Upbit.buy_with_settings o s settings).2.po_after_ob_fail = 0
    ∧ ((Upbit.buy_with_settings o s settings).2.ob_failed = true →
        (Upbit.buy_with_settings o s settings).1.1 = false) := by
  obtain ⟨h1, h2⟩ := Upbit.buy_no_order_after_ob_fail o s settings hof hpo
  exact ⟨fun hob => Upbit.buy_ob_fail_immediate o s settings hob, h1, h2⟩

/-- Witness for C6: a fresh state and an exchange whose order-book endpoint
returns no data — the buy aborts with zero `place_order` calls. -/
theorem C6_orderbook_failure_aborts_witness :
    Upbit.buy_with_settings ⟨fun _ => none, fun _ => none, fun _ => none⟩
      ⟨0, 0, 0, false, 0⟩ ⟨6000, "BID1", 10, "ASK1", 0⟩
      = ((false, some Upbit.ob_error_dict), ⟨1, 0, 0, true, 0⟩) ∧
    (Upbit.buy_with_settings ⟨fun _ => none, fun _ => none, fun _ => none⟩
      ⟨0, 0, 0, false, 0⟩ ⟨6000, "BID1", 10, "ASK1", 0⟩).2.po_calls = 0 := by
  obtain ⟨ha, -, -⟩ := C6_orderbook_failure_aborts
    ⟨fun _ => none, fun _ => none, fun _ => none⟩ ⟨0, 0, 0, false, 0⟩
    ⟨6000, "BID1", 10, "ASK1", 0⟩ rfl rfl
  have he := ha rfl
  exact ⟨he, by rw [he]⟩

namespace Upbit

/-! ## Buy-score engine (`MarketAnalyzer.calculate_buy_score`,
src/core/market_analyzer.py lines 1447-1535)

The nine weighted components, embedded over exact rationals.  The network
inputs fetched inside the function (recent trades, order book, daily candles)
are passed in as arguments; the 1-minute dataframe is a list of bars,
oldest → newest, and `iloc xs k` is pandas `.iloc[-k]`.  Pandas NaN values
(incomplete rolling windows, division by a zero stochastic range) are
modelled as `Option` with comparisons against `none` false, matching NaN
comparison semantics.  The component gates `conf.get('…_weight', 0) > 0`,
the enable flags, and the length guards mirror the source line by line. -/

structure BuyScoreConfig where
  strength_weight : ℚ
  strength_threshold : ℚ
  strength_threshold_low : ℚ
  volume_spike_weight : ℚ
  volume_spike_threshold : ℚ
  volume_spike_threshold_low : ℚ
  orderbook_weight : ℚ
  orderbook_threshold : ℚ
  momentum_weight : ℚ
  momentum_threshold : ℚ
  near_high_weight : ℚ
  near_high_threshold : ℚ
  trend_reversal_weight : ℚ
  williams_weight : ℚ
  williams_enabled : Bool
  stochastic_weight : ℚ
  stochastic_enabled : Bool
  macd_weight : ℚ
  macd_enabled : Bool
deriving DecidableEq

structure Trade where
  trade_volume : ℚ
  ask_bid : String
deriving DecidableEq

structure OrderbookSizes where
  total_bid_size : ℚ
  total_ask_size : ℚ
deriving DecidableEq

structure DayCandle where
  high_price : Option ℚ
deriving DecidableEq

structure Bar where
  close : ℚ
  high : ℚ
  low : ℚ
  volume : ℚ
deriving DecidableEq

/-- `safe_float` (market_analyzer.py lines 48-53): `None` becomes `0.0`. -/
def safe_float (v : Option ℚ) : ℚ := v.getD 0

/-- pandas `.iloc[-k]` on a series given oldest → newest. -/
def iloc (xs : List ℚ) (k : ℕ) : ℚ := xs.getD (xs.length - k) 0

def list_max : List ℚ → ℚ
  | [] => 0
  | x :: xs => xs.foldl max x

def list_min : List ℚ → ℚ
  | [] => 0
  | x :: xs => xs.foldl min x

/-- The last `n` entries of a series (`.iloc[-n:]`). -/
def lastN (xs : List ℚ) (n : ℕ) : List ℚ := xs.drop (xs.length - n)

/-- Component 1 (lines 1452-1462): trade-imbalance strength over the last 100
trades, full weight at ≥ threshold, half at ≥ low threshold. -/
def strength_score (conf : BuyScoreConfig) (trades : List Trade) : ℚ :=
  if 0 < conf.strength_weight then
    if trades ≠ [] then
      let buy_vol := ((trades.filter (·.ask_bid = "BID")).map (·.trade_volume)).sum
      let sell_vol := ((trades.filter (·.ask_bid = "ASK")).map (·.trade_volume)).sum
      let strength := if sell_vol ≠ 0 then buy_vol / sell_vol * 100 else 0
      if conf.strength_threshold ≤ strength then conf.strength_weight
      else if conf.strength_threshold_low ≤ strength then conf.strength_weight / 2
      else 0
    else 0
  else 0

/-- Component 2 (lines 1464-1472): latest 1-minute volume vs. the mean of the
five preceding (`.iloc[-6:-1].mean()`). -/
def volume_spike_score (conf : BuyScoreConfig) (volumes : List ℚ) : ℚ :=
  if 0 < conf.volume_spike_weight ∧ 5 < volumes.length then
    let recent := iloc volumes 1
    let avg := (iloc volumes 6 + iloc volumes 5 + iloc volumes 4
                + iloc volumes 3 + iloc volumes 2) / 5
    if avg ≠ 0 then
      if avg * (conf.volume_spike_threshold / 100) ≤ recent then conf.volume_spike_weight
      else if avg * (conf.volume_spike_threshold_low / 100) ≤ recent then
        conf.volume_spike_weight / 2
      else 0
    else 0
  else 0

/-- Component 3 (lines 1474-1481): order-book bid/ask size imbalance. -/
def orderbook_score (conf : BuyScoreConfig) (ob : Option OrderbookSizes) : ℚ :=
  if 0 < conf.orderbook_weight then
    match ob with
    | some b =>
      if b.total_ask_size ≠ 0 ∧
          conf.orderbook_threshold ≤ b.total_bid_size / b.total_ask_size * 100 then
        conf.orderbook_weight
      else 0
    | none => 0
  else 0

/-- Component 5 (lines 1491-1498): proximity of the current close to the
higher of the last two daily highs (each via `safe_float`). -/
def near_high_score (conf : BuyScoreConfig) (daily : List DayCandle) (closes : List ℚ) : ℚ :=
  if 0 < conf.near_high_weight then
    if daily ≠ [] ∧ 2 ≤ daily.length then
      let prev_high := max (safe_float ((daily.getD (daily.length - 1) ⟨none⟩).high_price))
                           (safe_float ((daily.getD (daily.length - 2) ⟨none⟩).high_price))
      let price := iloc closes 1
      if prev_high ≠ 0 ∧ |price - prev_high| / prev_high ≤ |conf.near_high_threshold| / 100 then
        conf.near_high_weight
      else 0
    else 0
  else 0

/-- Component 6 (lines 1500-1506): dip-then-recovery shape
`close[-16] > close[-1] > close[-6]`. -/
def trend_reversal_score (conf : BuyScoreConfig) (closes : List ℚ) : ℚ :=
  if 0 < conf.trend_reversal_weight ∧ 16 < closes.length then
    if iloc closes 1 < iloc closes 16 ∧ iloc closes 6 < iloc closes 1 then
      conf.trend_reversal_weight
    else 0
  else 0

/-- Component 7 (lines 1508-1515): Williams %R over the last 14 bars. -/
def williams_score (conf : BuyScoreConfig) (highs lows closes : List ℚ) : ℚ :=
  if 0 < conf.williams_weight ∧ conf.williams_enabled ∧ 14 ≤ closes.length then
    let hh := list_max (lastN highs 14)
    let ll := list_min (lastN lows 14)
    if hh ≠ ll then
      let wr := (hh - iloc closes 1) / (hh - ll) * (-100)
      if wr ≤ -80 then conf.williams_weight else 0
    else 0
  else 0

/-- `%K` of the 14-bar stochastic at absolute index `i`: `none` models the NaN
of an incomplete rolling window and of a zero high-low range (pandas NaN and
infinity both make the `< 20` comparison of line 1523 false for the inputs
arising here). -/
def stoch_k (highs lows closes : List ℚ) (i : ℕ) : Option ℚ :=
  if 13 ≤ i ∧ i < closes.length then
    let wlow := list_min ((lows.take (i + 1)).drop (i + 1 - 14))
    let whigh := list_max ((highs.take (i + 1)).drop (i + 1 - 14))
    if whigh - wlow = 0 then none
    else some ((closes.getD i 0 - wlow) / (whigh - wlow) * 100)
  else none

/-- NaN-aware `<`: a missing value compares false. -/
def olt : Option ℚ → ℚ → Bool
  | some x, c => decide (x < c)
  | none, _ => false

/-- Component 8 (lines 1517-1524): stochastic %K with its 3-bar %D. -/
def stochastic_score (conf : BuyScoreConfig) (highs lows closes : List ℚ) : ℚ :=
  if 0 < conf.stochastic_weight ∧ conf.stochastic_enabled ∧ 14 ≤ closes.length then
    let n := closes.length
    let k_last := stoch_k highs lows closes (n - 1)
    let d_last : Option ℚ :=
      match stoch_k highs lows closes (n - 3), stoch_k highs lows closes (n - 2), k_last with
      | some a, some b, some c => some ((a + b + c) / 3)
      | _, _, _ => none
    if olt k_last 20 ∧ olt d_last 20 then conf.stochastic_weight else 0
  else 0

/-- pandas `Series.ewm(span=span).mean()` (default `adjust=True`) at index
`t`: the `(1-α)^i`-weighted average of the first `t+1` entries,
`α = 2/(span+1)`. -/
def ewm_at (xs : List ℚ) (span : ℚ) (t : ℕ) : ℚ :=
  let a : ℚ := 2 / (span + 1)
  (∑ i ∈ Finset.range (t + 1), (1 - a) ^ i * xs.getD (t - i) 0) /
    (∑ i ∈ Finset.range (t + 1), (1 - a) ^ i)

def macd_at (closes : List ℚ) (t : ℕ) : ℚ :=
  ewm_at closes 12 t - ewm_at closes 26 t

def macd_signal_at (closes : List ℚ) (t : ℕ) : ℚ :=
  ewm_at ((List.range closes.length).map (macd_at closes)) 9 t

/-- Component 9 (lines 1526-1533): MACD(12,26) crossing above its 9-period
signal on the latest bar.  The source indexes `.iloc[-2]` unguarded; a 1-bar
frame would raise `IndexError` in Python, so the embedding is stated for
frames of length ≥ 2 (the claims only use frames of length > 4). -/
def macd_score (conf : BuyScoreConfig) (closes : List ℚ) : ℚ :=
  if 0 < conf.macd_weight ∧ conf.macd_enabled then
    if 2 ≤ closes.length then
      let n := closes.length
      if macd_signal_at closes (n - 1) < macd_at closes (n - 1) ∧
          macd_at closes (n - 2) ≤ macd_signal_at closes (n - 2) then
        conf.macd_weight
      else 0
    else 0
  else 0

/-- Components 5-9, which the source evaluates after the momentum check. -/
def buy_score_rest (conf : BuyScoreConfig) (daily : List DayCandle)
    (highs lows closes : List ℚ) (score : ℚ) : ℚ :=
  score + near_high_score conf daily closes + trend_reversal_score conf closes
    + williams_score conf highs lows closes + stochastic_score conf highs lows closes
    + macd_score conf closes

/-- `MarketAnalyzer.calculate_buy_score` (lines 1447-1535): components 1-3
accumulate, then the momentum check (lines 1484-1489) either adds its weight
(`change ≥ threshold`, checked first), hard-vetoes the whole score
(`return 0.0` on `change ≤ -threshold`), or neither, and components 5-9
follow. -/
def calculate_buy_score (conf : BuyScoreConfig) (trades : List Trade)
    (ob : Option OrderbookSizes) (daily : List DayCandle) (df : List Bar) : ℚ :=
  let closes := df.map Bar.close
  let highs := df.map Bar.high
  let lows := df.map Bar.low
  let volumes := df.map Bar.volume
  let score := strength_score conf trades
  let score := score + volume_spike_score conf volumes
  let score := score + orderbook_score conf ob
  if 0 < conf.momentum_weight ∧ 4 < df.length then
    let change := (iloc closes 1 / iloc closes 4 - 1) * 100
    if conf.momentum_threshold ≤ change then
      buy_score_rest conf daily highs lows closes (score + conf.momentum_weight)
    else if change ≤ -conf.momentum_threshold then 0
    else buy_score_rest conf daily highs lows closes score
  else buy_score_rest conf daily highs lows closes score

/-- Configuration of the C2 counterexample: only momentum enabled, with
`momentum_threshold = 0`. -/
def momentum_cex_conf : BuyScoreConfig :=
  ⟨0, 130, 110, 0, 200, 150, 0, 130, 1, 0, 0, -1, 0, 0, true, 0, true, 0, true⟩

/-- Five flat 1-minute bars for the C2 counterexample. -/
def momentum_cex_df : List Bar :=
  [⟨100, 100, 100, 100⟩, ⟨100, 100, 100, 100⟩, ⟨100, 100, 100, 100⟩,
   ⟨100, 100, 100, 100⟩, ⟨100, 100, 100, 100⟩]

end Upbit

/-- C2 counterexample: with `momentum_threshold = 0`, a flat frame has
`change = 0 ≤ -threshold`, yet the `change >= threshold` branch (checked
first) fires and adds the momentum weight: the total is 1, not 0 — the claim
fails for configurations whose threshold is not positive. -/
theorem C2_counterexample :
    (Upbit.iloc (Upbit.momentum_cex_df.map Upbit.Bar.close) 1
        / Upbit.iloc (Upbit.momentum_cex_df.map Upbit.Bar.close) 4 - 1) * 100
      ≤ -Upbit.momentum_cex_conf.momentum_threshold ∧
    0 < Upbit.momentum_cex_conf.momentum_weight ∧
    4 < Upbit.momentum_cex_df.length ∧
    Upbit.calculate_buy_score Upbit.momentum_cex_conf [] none [] Upbit.momentum_cex_df = 1 := by
  refine ⟨?_, by norm_num [Upbit.momentum_cex_conf], by norm_num [Upbit.momentum_cex_df], ?_⟩
  · norm_num [Upbit.momentum_cex_conf, Upbit.momentum_cex_df, Upbit.iloc]
  · norm_num [Upbit.calculate_buy_score, Upbit.strength_score, Upbit.volume_spike_score,
      Upbit.orderbook_score, Upbit.buy_score_rest, Upbit.near_high_score,
      Upbit.trend_reversal_score, Upbit.williams_score, Upbit.stochastic_score,
      Upbit.macd_score, Upbit.iloc, Upbit.momentum_cex_conf, Upbit.momentum_cex_df]

/-- C2 (amended): for every 1-minute frame with more than 4 rows and every
configuration with `momentum_weight > 0` and a *positive*
`momentum_threshold`, a four-bar percent change ≤ −threshold makes
`calculate_buy_score` return 0 outright, whatever the other eight components
(and their inputs) would contribute — the momentum veto dominates. -/
theorem C2_momentum_veto (conf : Upbit.BuyScoreConfig) (trades : List Upbit.Trade)
    (ob : Option Upbit.OrderbookSizes) (daily : List Upbit.DayCandle) (df : List Upbit.Bar)
    (hw : 0 < conf.momentum_weight) (hlen : 4 < df.length)
    (hth : 0 < conf.momentum_threshold)
    (hch : (Upbit.iloc (df.map Upbit.Bar.close) 1 / Upbit.iloc (df.map Upbit.Bar.close) 4 - 1)
            * 100 ≤ -conf.momentum_threshold) :
    Upbit.calculate_buy_score conf trades ob daily df = 0 := by
  unfold Upbit.calculate_buy_score
  rw [if_pos ⟨hw, hlen⟩, if_neg (by linarith), if_pos hch]

/-- Witness for C2 (amended): threshold 0.3, closes dropping from 100 to 90
(change −10%), every other component given inputs — the score is 0. -/
theorem C2_momentum_veto_witness :
    Upbit.calculate_buy_score
      ⟨1, 130, 110, 1, 200, 150, 1, 130, 1, 3/10, 1, -1, 1, 1, true, 1, true, 1, true⟩
      [⟨5, "BID"⟩] (some ⟨200, 100⟩) [⟨some 100⟩, ⟨some 100⟩]
      [⟨100, 100, 100, 100⟩, ⟨100, 100, 100, 100⟩, ⟨90, 90, 90, 90⟩,
       ⟨90, 90, 90, 90⟩, ⟨90, 90, 90, 90⟩] = 0 := by
  refine C2_momentum_veto _ _ _ _ _ (by norm_num) (by norm_num) (by norm_num) ?_
  norm_num [Upbit.iloc]
